import Mathlib

/-!
Verification development for a rule-based trading backtester.

The embedding translates, in exact rational/real arithmetic:
* `config.py` — the process-wide constants `INITIAL_CASH` and `COMMISSION`;
* `backtester.py` — signal generation (`Backtester._generate_signals`) and the
  bar-by-bar simulation loop (`Backtester.run`);
* `optimizer.py` — the objective metric (`Optimizer._calculate_objective_metric`)
  and the walk-forward objective (`Optimizer.objective`).

Indicator computation (`indicator_calculator.py` delegating to the external
pandas-ta library) is outside the modelled core, matching the specification's
scope; the walk-forward objective therefore takes the per-block indicator
computation as an abstract function argument.
-/

namespace Trading

/-- Initial capital, from `config.py` (`INITIAL_CASH = 1_000_000`). -/
def INITIAL_CASH : ℚ := 1000000

/-- Commission per operation, from `config.py` (`COMMISSION = 0.00125`). -/
def COMMISSION : ℚ := 125 / 100000

/-- One market bar after indicator computation: timestamp (in seconds), close
price, and the indicator columns the strategy reads (`EMA_*`, `ADX_*`,
`MACD_*`, `MACDs_*`). -/
structure Bar where
  t : ℚ
  close : ℚ
  ema : ℚ
  adx : ℚ
  macd : ℚ
  macds : ℚ
deriving DecidableEq, Inhabited

/-- Strategy parameters consumed by `Backtester` (the indicator lengths only
select column names in the source, so they do not appear here). -/
structure Params where
  adx_threshold : ℚ
  stop_loss : ℚ
  take_profit : ℚ
  n_shares : ℚ
deriving DecidableEq, Inhabited

/-- The 2-of-3 vote of `Backtester._generate_signals`: the three condition
booleans are cast to integers and a signal fires when their sum is `≥ 2`. -/
def vote2of3 (a b c : Bool) : Bool :=
  decide (2 ≤ a.toNat + b.toNat + c.toNat)

/-- MACD cross-up between the previous and the current bar
(`cond_macd_cross_up` in `Backtester._generate_signals`). -/
def crossUp (prev b : Bar) : Bool :=
  decide (prev.macd < prev.macds) && decide (b.macd > b.macds)

/-- MACD cross-down between the previous and the current bar
(`cond_macd_cross_down` in `Backtester._generate_signals`). -/
def crossDown (prev b : Bar) : Bool :=
  decide (prev.macd > prev.macds) && decide (b.macd < b.macds)

/-- Buy signal of one row: trend (`close > EMA`), strength
(`ADX > threshold`) and MACD cross-up, combined by the 2-of-3 vote.  The
previous bar is `none` on the first row, where the shifted comparison of the
source is a comparison with NaN and hence false. -/
def buyAt (p : Params) (prev : Option Bar) (b : Bar) : Bool :=
  vote2of3 (decide (b.close > b.ema)) (decide (b.adx > p.adx_threshold))
    (match prev with
     | none => false
     | some pb => crossUp pb b)

/-- Sell signal of one row: trend (`close < EMA`), strength
(`ADX > threshold`) and MACD cross-down, combined by the 2-of-3 vote. -/
def sellAt (p : Params) (prev : Option Bar) (b : Bar) : Bool :=
  vote2of3 (decide (b.close < b.ema)) (decide (b.adx > p.adx_threshold))
    (match prev with
     | none => false
     | some pb => crossDown pb b)

/-- Each bar paired with its predecessor (`none` for the first bar),
realising the `.shift(1)` alignment of `_generate_signals`. -/
def withPrev (bars : List Bar) : List (Option Bar × Bar) :=
  (none :: bars.map some).zip bars

/-- The `buy_signal` column added by `Backtester._generate_signals`,
aligned one-to-one with the bar sequence. -/
def buySignals (p : Params) (bars : List Bar) : List Bool :=
  (withPrev bars).map (fun pc => buyAt p pc.1 pc.2)

/-- The `sell_signal` column added by `Backtester._generate_signals`,
aligned one-to-one with the bar sequence. -/
def sellSignals (p : Params) (bars : List Bar) : List Bool :=
  (withPrev bars).map (fun pc => sellAt p pc.1 pc.2)

/-- Buy signal at bar index `i` (false past the end of the data). -/
def buy_signal (p : Params) (bars : List Bar) (i : ℕ) : Bool :=
  (buySignals p bars).getD i false

/-- Sell signal at bar index `i` (false past the end of the data). -/
def sell_signal (p : Params) (bars : List Bar) (i : ℕ) : Bool :=
  (sellSignals p bars).getD i false

/-- Mutable simulation state of `Backtester.run`: cash balance, signed
position size (`> 0` long, `< 0` short, `= 0` flat) and the entry price of
the open position. -/
structure SimState where
  cash : ℚ
  position : ℚ
  entry_price : ℚ
deriving DecidableEq, Inhabited

/-- Step 1 of the per-bar loop in `Backtester.run` (lines 116-128): close an
open position at the current price when it has crossed the stop-loss or
take-profit trigger computed from the entry price. -/
def exitPhase (stop_loss_pct take_profit_pct commission price : ℚ)
    (s : SimState) : SimState :=
  if s.position > 0 then
    let stop_loss_price := s.entry_price * (1 - stop_loss_pct)
    let take_profit_price := s.entry_price * (1 + take_profit_pct)
    if price ≤ stop_loss_price ∨ price ≥ take_profit_price then
      { s with cash := s.cash + s.position * price * (1 - commission),
               position := 0 }
    else s
  else if s.position < 0 then
    let stop_loss_price := s.entry_price * (1 + stop_loss_pct)
    let take_profit_price := s.entry_price * (1 - take_profit_pct)
    if price ≥ stop_loss_price ∨ price ≤ take_profit_price then
      { s with cash := s.cash - |s.position| * price * (1 + commission),
               position := 0 }
    else s
  else s

/-- Step 2 of the per-bar loop in `Backtester.run` (lines 131-145): when flat,
open a Long on a buy signal (guarded by `cash > cost`) or, failing that, a
Short on a sell signal (unconditionally). -/
def entryPhase (n_shares commission : ℚ) (buy sell : Bool) (price : ℚ)
    (s : SimState) : SimState :=
  if s.position = 0 then
    if buy then
      let investment_amount := s.cash * n_shares
      let cost := investment_amount * (1 + commission)
      if s.cash > cost then
        { cash := s.cash - cost,
          position := investment_amount / price,
          entry_price := price }
      else s
    else if sell then
      let investment_amount := s.cash * n_shares
      let proceeds := investment_amount * (1 - commission)
      { cash := s.cash + proceeds,
        position := -(investment_amount / price),
        entry_price := price }
    else s
  else s

/-- Step 3 of the per-bar loop in `Backtester.run` (lines 148-154):
mark-to-market portfolio value at the current price. -/
def markValue (price : ℚ) (s : SimState) : ℚ :=
  if s.position > 0 then s.cash + s.position * price
  else if s.position < 0 then s.cash - |s.position| * price
  else s.cash

/-- One iteration of the per-bar loop of `Backtester.run` on a bar with its
two signal booleans: exit check, then entry check, then mark-to-market;
returns the updated state and the recorded portfolio value. -/
def stepBar (p : Params) (commission : ℚ) (b : Bar) (buy sell : Bool)
    (s : SimState) : SimState × ℚ :=
  let current_price := b.close
  let s1 := exitPhase p.stop_loss p.take_profit commission current_price s
  let s2 := entryPhase p.n_shares commission buy sell current_price s1
  (s2, markValue current_price s2)

/-- One row of the simulation loop: a bar together with its buy and sell
signals, as read by `Backtester.run` from the signal columns. -/
def simRows (p : Params) (bars : List Bar) : List (Bar × Bool × Bool) :=
  (withPrev bars).map (fun pc => (pc.2, buyAt p pc.1 pc.2, sellAt p pc.1 pc.2))

/-- The loop `for i in range(1, len(data))` of `Backtester.run`, walking the
signal rows and recording state and portfolio value after each bar. -/
def runLoop (p : Params) (commission : ℚ) :
    SimState → List (Bar × Bool × Bool) → List (SimState × ℚ)
  | _, [] => []
  | s, row :: rest =>
    let r := stepBar p commission row.1 row.2.1 row.2.2 s
    r :: runLoop p commission r.1 rest

/-- Initial simulation state of `Backtester.run`: full initial capital, flat. -/
def initState : SimState := { cash := INITIAL_CASH, position := 0, entry_price := 0 }

/-- State-and-value trace of `Backtester.run` over bars `1 .. len-1` (the
loop starts at index 1, hence the dropped first row). -/
def runTrace (p : Params) (commission : ℚ) (bars : List Bar) :
    List (SimState × ℚ) :=
  runLoop p commission initState ((simRows p bars).drop 1)

/-- The `portfolio_values` list built by `Backtester.run`. -/
def runValues (p : Params) (commission : ℚ) (bars : List Bar) : List ℚ :=
  (runTrace p commission bars).map Prod.snd

/-- The timestamped portfolio-value series returned by
`Backtester.run(return_value_series=True)` (values indexed by
`data.index[1:]`). -/
def runSeries (p : Params) (commission : ℚ) (bars : List Bar) :
    List (ℚ × ℚ) :=
  ((bars.drop 1).map Bar.t).zip (runValues p commission bars)

/-- The scalar returned by `Backtester.run()`: the last portfolio value, or
the initial capital when no bar was simulated. -/
def runFinal (p : Params) (commission : ℚ) (bars : List Bar) : ℚ :=
  (runValues p commission bars).getLastD INITIAL_CASH

/-- Running maximum (pandas `cummax`) continuing from current maximum `m`. -/
def cummaxAux (m : ℚ) : List ℚ → List ℚ
  | [] => []
  | x :: xs => max m x :: cummaxAux (max m x) xs

/-- Running maximum of a value list, as `portfolio_value_series.cummax()` in
`Optimizer._calculate_objective_metric`. -/
def cummax : List ℚ → List ℚ
  | [] => []
  | x :: xs => x :: cummaxAux x xs

/-- Pointwise drawdown `(value − running peak) / running peak` of
`Optimizer._calculate_objective_metric`. -/
def drawdownList (vs : List ℚ) : List ℚ :=
  List.zipWith (fun v m => (v - m) / m) vs (cummax vs)

/-- Minimum of a list (pandas `.min()`; only applied to nonempty lists by the
guarded callers, `0` on the empty list). -/
def listMin : List ℚ → ℚ
  | [] => 0
  | x :: xs => xs.foldl min x

/-- First point of a timestamped series (`.iloc[0]` / `.index[0]`). -/
def seriesFirst (s : List (ℚ × ℚ)) : ℚ × ℚ := s.headD (0, 0)

/-- Last point of a timestamped series (`.iloc[-1]` / `.index[-1]`). -/
def seriesLast (s : List (ℚ × ℚ)) : ℚ × ℚ := s.getLastD (0, 0)

/-- Total return `iloc[-1] / iloc[0] − 1` of
`Optimizer._calculate_objective_metric`. -/
def totalReturn (s : List (ℚ × ℚ)) : ℚ :=
  (seriesLast s).2 / (seriesFirst s).2 - 1

/-- Elapsed time in hours between first and last timestamps (timestamps are
stored in seconds, so this is `total_seconds() / 3600`). -/
def nHours (s : List (ℚ × ℚ)) : ℚ :=
  ((seriesLast s).1 - (seriesFirst s).1) / 3600

/-- Maximum drawdown `abs(drawdown.min())` of
`Optimizer._calculate_objective_metric`. -/
def maxDrawdown (s : List (ℚ × ℚ)) : ℚ :=
  |listMin (drawdownList (s.map Prod.snd))|

/-- Annualized return `(1 + total_return) ** (8760.0 / n_hours) − 1` of
`Optimizer._calculate_objective_metric`, in exact real arithmetic. -/
noncomputable def annualizedReturn (s : List (ℚ × ℚ)) : ℝ :=
  (1 + (totalReturn s : ℝ)) ^ (((8760 : ℚ) / nHours s : ℚ) : ℝ) - 1

/-- The objective metric (Calmar-ratio-like) of
`Optimizer._calculate_objective_metric`: `0` for series with fewer than two
points, elapsed time under one hour, or maximum drawdown under 1%, and
otherwise the annualized return divided by the maximum drawdown. -/
noncomputable def calculate_objective_metric (s : List (ℚ × ℚ)) : ℝ :=
  if s.length < 2 then 0
  else if nHours s < 1 then 0
  else if maxDrawdown s < 1 / 100 then 0
  else annualizedReturn s / (maxDrawdown s : ℝ)

/-- One raw OHLCV record, before indicator computation (timestamp in
seconds). -/
structure RawBar where
  t : ℚ
  open_p : ℚ
  high : ℚ
  low : ℚ
  close : ℚ
  volume : ℚ
deriving DecidableEq, Inhabited

/-- The hyperparameters of one Optuna trial that the walk-forward objective
itself inspects: the MACD fast/slow periods (used by the validity check) and
the strategy parameters handed to the `Backtester`. -/
structure OptParams where
  macd_fast : ℕ
  macd_slow : ℕ
  strat : Params
deriving DecidableEq, Inhabited

/-- The walk-forward objective `Optimizer.objective`.  The per-block indicator
computation (`add_indicators`, delegating to the external pandas-ta library)
is passed in as an abstract function.  Returns `−1` when the MACD periods are
invalid (`fast ≥ slow`) or the pre-indicator block size `len(data) // 10` is
below 30; otherwise the mean over the 10 contiguous equal-sized blocks of the
per-block score (the objective metric of the block's portfolio-value series,
or `−1` when that series is empty). -/
noncomputable def objective (add_indicators : List RawBar → List Bar)
    (op : OptParams) (data : List RawBar) : ℝ :=
  if op.macd_fast ≥ op.macd_slow then -1
  else
    let n_splits := 10
    let chunk_size := data.length / n_splits
    if chunk_size < 30 then -1
    else
      let objective_metrics := (List.range n_splits).map (fun i =>
        let chunk := (data.drop (i * chunk_size)).take chunk_size
        let chunk_with_indicators := add_indicators chunk
        let portfolio_values := runSeries op.strat COMMISSION chunk_with_indicators
        if portfolio_values.isEmpty then (-1 : ℝ)
        else calculate_objective_metric portfolio_values)
      if objective_metrics.isEmpty then -1
      else objective_metrics.sum / objective_metrics.length

/-- The simulator's transition at bar index `i`: the loop body of
`Backtester.run` applied to bar `i`'s close price and bar `i`'s two signal
booleans. -/
def stepAt (p : Params) (c : ℚ) (bars : List Bar) (i : ℕ) (s : SimState) :
    SimState × ℚ :=
  stepBar p c (bars.getD i default) (buy_signal p bars i) (sell_signal p bars i) s

/-- Parameters of the specification's take-profit scenario: ADX threshold 30,
stop-loss 5%, take-profit 20%, half the capital per position. -/
def scenarioParams : Params :=
  { adx_threshold := 30, stop_loss := 1/20, take_profit := 1/5, n_shares := 1/2 }

/-- Bar with the given close, EMA and ADX values and neutral MACD columns. -/
def sBar (close ema adx : ℚ) : Bar :=
  { t := 0, close := close, ema := ema, adx := adx, macd := 0, macds := 0 }

/-- Bars of the specification's scenario: constant close 100, a buy signal at
bar 1 (close above EMA and strong ADX), close jumping to 130 at bar 5 and
staying there, no further signals. -/
def scenarioBars : List Bar :=
  [sBar 100 200 0, sBar 100 90 50, sBar 100 200 0, sBar 100 200 0, sBar 100 200 0,
   sBar 130 200 0, sBar 130 200 0, sBar 130 200 0, sBar 130 200 0, sBar 130 200 0]

/-- Two bars whose second bar fires a sell signal (close below EMA, strong
ADX) and no buy signal. -/
def c2Bars : List Bar := [sBar 100 200 0, sBar 100 200 50]

/-- A single bar on which both the trend and the strength condition hold. -/
def c8Bars : List Bar := [sBar 100 50 50]

/-- Bars for the solvency counterexample: a sell signal at bar 1 opens a
Short at price 100, and the close then jumps to 100000, forcing a
stop-loss buy-back far above the available cash. -/
def c10Bars : List Bar := [sBar 100 200 0, sBar 100 200 50, sBar 100000 200 0]

/-- Parameters identical to the scenario's except that the whole capital is
allocated per trade, so the required outlay exceeds the available cash. -/
def c3FailParams : Params :=
  { adx_threshold := 30, stop_loss := 1/20, take_profit := 1/5, n_shares := 1 }

/-- A bar list agreeing with the scenario bars on indices 0..2 and differing
from index 3 on (shorter, with different bars). -/
def c7AltBars : List Bar :=
  [sBar 100 200 0, sBar 100 90 50, sBar 100 200 0, sBar 55 1 7, sBar 7 7 7]


/-! ## Theorems -/

/-- The loop body of `Backtester.run`: each row is processed by `stepBar` and
the loop continues from the updated state. -/
lemma runLoop_cons (p : Params) (c : ℚ) (s : SimState) (row : Bar × Bool × Bool)
    (rest : List (Bar × Bool × Bool)) :
    runLoop p c s (row :: rest) =
      stepBar p c row.1 row.2.1 row.2.2 s ::
        runLoop p c (stepBar p c row.1 row.2.1 row.2.2 s).1 rest := rfl

/-- The exit phase leaves a flat state unchanged. -/
lemma exitPhase_flat (sl tp c pr : ℚ) (s : SimState) (h : s.position = 0) :
    exitPhase sl tp c pr s = s := by
  unfold exitPhase
  rw [h]
  simp

/-- Effect of the unconditional Short opening on a flat state when the sell
signal fires and the buy signal does not. -/
lemma entryPhase_sell (n c pr : ℚ) (s : SimState) (h : s.position = 0) :
    entryPhase n c false true pr s =
      ⟨s.cash + s.cash * n * (1 - c), -(s.cash * n / pr), pr⟩ := by
  unfold entryPhase
  rw [h]
  simp

/-- Effect of the Long opening on a flat state when the buy signal fires and
the capital check `cash > cost` passes. -/
lemma entryPhase_buy (n c pr : ℚ) (sell : Bool) (s : SimState) (h : s.position = 0)
    (hgate : s.cash > s.cash * n * (1 + c)) :
    entryPhase n c true sell pr s =
      ⟨s.cash - s.cash * n * (1 + c), s.cash * n / pr, pr⟩ := by
  unfold entryPhase
  rw [h]
  simp [hgate]

/-- A failed capital check silently skips the Long entry. -/
lemma entryPhase_buy_skip (n c pr : ℚ) (sell : Bool) (s : SimState) (h : s.position = 0)
    (hgate : ¬ s.cash > s.cash * n * (1 + c)) :
    entryPhase n c true sell pr s = s := by
  unfold entryPhase
  rw [h]
  simp [hgate]

set_option maxHeartbeats 1000000 in
/-- Full state-and-value trace of the specification scenario: a Long of 5000
units opens at bar 1 at price 100, is held through bar 4, and the take-profit
exit fires at bar 5 at price 130. -/
lemma scenario_trace :
    runTrace scenarioParams COMMISSION scenarioBars =
      [(⟨499375, 5000, 100⟩, 999375), (⟨499375, 5000, 100⟩, 999375),
       (⟨499375, 5000, 100⟩, 999375), (⟨499375, 5000, 100⟩, 999375),
       (⟨2297125/2, 0, 100⟩, 2297125/2), (⟨2297125/2, 0, 100⟩, 2297125/2),
       (⟨2297125/2, 0, 100⟩, 2297125/2), (⟨2297125/2, 0, 100⟩, 2297125/2),
       (⟨2297125/2, 0, 100⟩, 2297125/2)] := by
  norm_num [runTrace, runLoop, simRows, withPrev, stepBar, exitPhase, entryPhase,
    markValue, buyAt, sellAt, vote2of3, crossUp, crossDown, scenarioParams, scenarioBars,
    sBar, initState, INITIAL_CASH, COMMISSION]

/-- C1: every per-bar transition of the simulator applies exactly the three
steps exit check, entry check and mark-to-market in that fixed order, at the
same bar's price; and in the specification's scenario (constant close 100
jumping to 130 at bar 5, Long opened at bar 1 at price 100, take-profit 0.2)
the exit occurs exactly at bar 5: the position is still 5000 after bar 4,
is 0 after bar 5, and bar 5's close credits `size × price × (1 − commission)`
to cash. -/
theorem C1_per_bar_order_and_scenario :
    (∀ (p : Params) (c : ℚ) (b : Bar) (buy sell : Bool) (s : SimState),
        stepBar p c b buy sell s =
          (entryPhase p.n_shares c buy sell b.close
             (exitPhase p.stop_loss p.take_profit c b.close s),
           markValue b.close
             (entryPhase p.n_shares c buy sell b.close
                (exitPhase p.stop_loss p.take_profit c b.close s)))) ∧
    runValues scenarioParams COMMISSION scenarioBars =
      [999375, 999375, 999375, 999375, 2297125/2, 2297125/2, 2297125/2,
       2297125/2, 2297125/2] ∧
    ((runTrace scenarioParams COMMISSION scenarioBars).getD 3 default).1.position = 5000 ∧
    ((runTrace scenarioParams COMMISSION scenarioBars).getD 4 default).1.position = 0 ∧
    ((runTrace scenarioParams COMMISSION scenarioBars).getD 4 default).1.cash =
      ((runTrace scenarioParams COMMISSION scenarioBars).getD 3 default).1.cash
        + 5000 * 130 * (1 - COMMISSION) := by
  refine ⟨fun p c b buy sell s => rfl, ?_, ?_, ?_, ?_⟩ <;>
    simp only [runValues, scenario_trace] <;> norm_num [COMMISSION]

/-- C2: on a bar whose sell signal is true, buy signal false and state flat,
the simulator opens a Short unconditionally, crediting
`investment × (1 − commission)` to cash with `investment = cash × n_shares`
and setting `size = −investment/price`; the recorded portfolio value equals
the post-credit cash minus `|size| × price`, which equals the pre-trade cash
minus `investment × commission`. -/
theorem C2_short_entry (p : Params) (c : ℚ) (bars : List Bar) (i : ℕ) (s : SimState)
    (hflat : s.position = 0)
    (hbuy : buy_signal p bars i = false)
    (hsell : sell_signal p bars i = true)
    (hprice : 0 < (bars.getD i default).close)
    (hinv : 0 ≤ s.cash * p.n_shares) :
    (stepAt p c bars i s).1.cash = s.cash + s.cash * p.n_shares * (1 - c) ∧
    (stepAt p c bars i s).1.position =
      -(s.cash * p.n_shares / (bars.getD i default).close) ∧
    (stepAt p c bars i s).2 =
      (stepAt p c bars i s).1.cash -
        |(stepAt p c bars i s).1.position| * (bars.getD i default).close ∧
    (stepAt p c bars i s).2 = s.cash - s.cash * p.n_shares * c := by
  have hpr : (bars.getD i default).close ≠ 0 := ne_of_gt hprice
  have hq : 0 ≤ s.cash * p.n_shares / (bars.getD i default).close :=
    div_nonneg hinv (le_of_lt hprice)
  have hstep : stepAt p c bars i s =
      (⟨s.cash + s.cash * p.n_shares * (1 - c),
        -(s.cash * p.n_shares / (bars.getD i default).close),
        (bars.getD i default).close⟩,
       markValue (bars.getD i default).close
         ⟨s.cash + s.cash * p.n_shares * (1 - c),
          -(s.cash * p.n_shares / (bars.getD i default).close),
          (bars.getD i default).close⟩) := by
    simp only [stepAt, stepBar, hbuy, hsell, exitPhase_flat _ _ _ _ _ hflat,
      entryPhase_sell _ _ _ _ hflat]
  have habs : |(-(s.cash * p.n_shares / (bars.getD i default).close))| =
      s.cash * p.n_shares / (bars.getD i default).close := by
    rw [abs_neg, abs_of_nonneg hq]
  have hmv : markValue (bars.getD i default).close
      ⟨s.cash + s.cash * p.n_shares * (1 - c),
       -(s.cash * p.n_shares / (bars.getD i default).close),
       (bars.getD i default).close⟩ =
      s.cash + s.cash * p.n_shares * (1 - c) -
        s.cash * p.n_shares / (bars.getD i default).close *
          (bars.getD i default).close := by
    unfold markValue
    rw [if_neg (by simp only; linarith)]
    split_ifs with h2
    · simp only [habs]
    · have h0 : s.cash * p.n_shares / (bars.getD i default).close = 0 := by
        simp only at h2
        linarith
      simp only [h0]
      norm_num
  refine ⟨by rw [hstep], by rw [hstep], ?_, ?_⟩
  · rw [hstep]
    simp only [hmv, habs]
  · rw [hstep]
    simp only [hmv]
    rw [div_mul_cancel₀ _ hpr]
    ring

/-- C2 witness: the Short entry theorem applied at bar 1 of a concrete
two-bar dataset from the flat initial state. -/
theorem C2_short_entry_witness :
    (stepAt scenarioParams COMMISSION c2Bars 1 initState).1.cash =
      initState.cash + initState.cash * scenarioParams.n_shares * (1 - COMMISSION) ∧
    (stepAt scenarioParams COMMISSION c2Bars 1 initState).1.position =
      -(initState.cash * scenarioParams.n_shares / (c2Bars.getD 1 default).close) ∧
    (stepAt scenarioParams COMMISSION c2Bars 1 initState).2 =
      (stepAt scenarioParams COMMISSION c2Bars 1 initState).1.cash -
        |(stepAt scenarioParams COMMISSION c2Bars 1 initState).1.position| *
          (c2Bars.getD 1 default).close ∧
    (stepAt scenarioParams COMMISSION c2Bars 1 initState).2 =
      initState.cash - initState.cash * scenarioParams.n_shares * COMMISSION :=
  C2_short_entry scenarioParams COMMISSION c2Bars 1 initState rfl
    (by norm_num [buy_signal, buySignals, withPrev, buyAt, vote2of3, crossUp,
      c2Bars, sBar, scenarioParams])
    (by norm_num [sell_signal, sellSignals, withPrev, sellAt, vote2of3, crossDown,
      c2Bars, sBar, scenarioParams])
    (by norm_num [c2Bars, sBar])
    (by norm_num [initState, INITIAL_CASH, scenarioParams])

/-- C3: on a bar whose buy signal is true and state flat, a Long is opened
iff `cash > investment × (1 + commission)` holds strictly
(`investment = cash × n_shares`); a failed check leaves cash and position
unchanged (silently skipped, no error), and a passed check debits exactly the
outlay, sets `size = investment/price` and records the entry price. -/
theorem C3_long_entry_gate (p : Params) (c : ℚ) (bars : List Bar) (i : ℕ) (s : SimState)
    (hflat : s.position = 0)
    (hbuy : buy_signal p bars i = true) :
    (¬ s.cash > s.cash * p.n_shares * (1 + c) →
       (stepAt p c bars i s).1 = s ∧ (stepAt p c bars i s).2 = s.cash) ∧
    (s.cash > s.cash * p.n_shares * (1 + c) →
       (stepAt p c bars i s).1.cash = s.cash - s.cash * p.n_shares * (1 + c) ∧
       (stepAt p c bars i s).1.position =
         s.cash * p.n_shares / (bars.getD i default).close ∧
       (stepAt p c bars i s).1.entry_price = (bars.getD i default).close) := by
  constructor
  · intro hgate
    have hstep : stepAt p c bars i s = (s, markValue (bars.getD i default).close s) := by
      simp only [stepAt, stepBar, hbuy, exitPhase_flat _ _ _ _ _ hflat,
        entryPhase_buy_skip _ _ _ _ _ hflat hgate]
    rw [hstep]
    refine ⟨rfl, ?_⟩
    unfold markValue
    rw [hflat]
    norm_num
  · intro hgate
    have hstep : stepAt p c bars i s =
        (⟨s.cash - s.cash * p.n_shares * (1 + c),
          s.cash * p.n_shares / (bars.getD i default).close,
          (bars.getD i default).close⟩,
         markValue (bars.getD i default).close
           ⟨s.cash - s.cash * p.n_shares * (1 + c),
            s.cash * p.n_shares / (bars.getD i default).close,
            (bars.getD i default).close⟩) := by
      simp only [stepAt, stepBar, hbuy, exitPhase_flat _ _ _ _ _ hflat,
        entryPhase_buy _ _ _ _ _ hflat hgate]
    rw [hstep]
    exact ⟨rfl, rfl, rfl⟩

/-- C3 witness: with initial capital 1,000,000, `n_shares = 0.5`, commission
0.00125 and price 100 the outlay is `500000 × 1.00125` and the entry passes;
with `n_shares = 1` the check fails and the state is unchanged. -/
theorem C3_long_entry_gate_witness :
    ((stepAt scenarioParams COMMISSION scenarioBars 1 initState).1.cash =
       initState.cash - initState.cash * scenarioParams.n_shares * (1 + COMMISSION) ∧
     (stepAt scenarioParams COMMISSION scenarioBars 1 initState).1.position =
       initState.cash * scenarioParams.n_shares / (scenarioBars.getD 1 default).close ∧
     (stepAt scenarioParams COMMISSION scenarioBars 1 initState).1.entry_price =
       (scenarioBars.getD 1 default).close) ∧
    ((stepAt c3FailParams COMMISSION scenarioBars 1 initState).1 = initState ∧
     (stepAt c3FailParams COMMISSION scenarioBars 1 initState).2 = initState.cash) :=
  ⟨(C3_long_entry_gate scenarioParams COMMISSION scenarioBars 1 initState rfl
      (by norm_num [buy_signal, buySignals, withPrev, buyAt, vote2of3, crossUp,
        scenarioBars, sBar, scenarioParams])).2
     (by norm_num [initState, INITIAL_CASH, scenarioParams, COMMISSION]),
   (C3_long_entry_gate c3FailParams COMMISSION scenarioBars 1 initState rfl
      (by norm_num [buy_signal, buySignals, withPrev, buyAt, vote2of3, crossUp,
        scenarioBars, sBar, c3FailParams])).1
     (by norm_num [initState, INITIAL_CASH, c3FailParams, COMMISSION])⟩

/-- C9: a Long opened at price `pr` with cash `C` (outlay `C·n·(1+c)`
debited) and closed by the exit phase at the same price `pr` leaves ending
cash `C − 2·(C·n)·c`: the round-trip cost is exactly twice the one-leg
commission on the invested amount, in exact arithmetic. -/
theorem C9_roundtrip_commission (sl tp n c C pr : ℚ)
    (hC : 0 < C) (hn : 0 < n) (hpr : 0 < pr)
    (hgate : C * n * (1 + c) < C)
    (hexit : pr ≤ pr * (1 - sl) ∨ pr ≥ pr * (1 + tp)) :
    (exitPhase sl tp c pr (entryPhase n c true false pr ⟨C, 0, 0⟩)).cash =
      C - 2 * (C * n) * c ∧
    (exitPhase sl tp c pr (entryPhase n c true false pr ⟨C, 0, 0⟩)).position = 0 := by
  have hopen : entryPhase n c true false pr ⟨C, 0, 0⟩ =
      ⟨C - C * n * (1 + c), C * n / pr, pr⟩ :=
    entryPhase_buy n c pr false ⟨C, 0, 0⟩ rfl hgate
  rw [hopen]
  have hpos : ((⟨C - C * n * (1 + c), C * n / pr, pr⟩ : SimState).position : ℚ) > 0 :=
    div_pos (mul_pos hC hn) hpr
  unfold exitPhase
  rw [if_pos hpos, if_pos hexit]
  have hkey : C * n / pr * pr = C * n := div_mul_cancel₀ _ (ne_of_gt hpr)
  constructor
  · show C - C * n * (1 + c) + C * n / pr * pr * (1 - c) = C - 2 * (C * n) * c
    rw [hkey]
    ring
  · rfl

/-- C9 witness: the round-trip theorem at `C = 1000`, `n = 1/2`, `c = 1/100`,
price 10 and take-profit 0, where the exit trigger holds at the entry price. -/
theorem C9_roundtrip_commission_witness :
    (exitPhase (1/20) 0 (1/100) 10
        (entryPhase (1/2) (1/100) true false 10 ⟨1000, 0, 0⟩)).cash =
      1000 - 2 * (1000 * (1/2)) * (1/100) ∧
    (exitPhase (1/20) 0 (1/100) 10
        (entryPhase (1/2) (1/100) true false 10 ⟨1000, 0, 0⟩)).position = 0 :=
  C9_roundtrip_commission (1/20) 0 (1/2) (1/100) 1000 10 (by norm_num)
    (by norm_num) (by norm_num) (by norm_num) (Or.inr (by norm_num))

/-- The 2-of-3 vote with a false third condition is the conjunction of the
first two. -/
lemma vote2of3_false_right (a b : Bool) : vote2of3 a b false = (a && b) := by
  cases a <;> cases b <;> rfl

/-- C8 counterexample: on a single-bar dataset whose bar 0 has close above
the EMA and ADX above the threshold, the generated buy signal at bar 0 is
true, refuting the claim that the first element of each signal series is
always false. -/
theorem C8_counterexample : buy_signal scenarioParams c8Bars 0 = true := by
  norm_num [buy_signal, buySignals, withPrev, buyAt, vote2of3, c8Bars, sBar,
    scenarioParams]

/-- C8 amended: at bar 0 only the momentum-cross condition is necessarily
false (no prior bar), so the bar-0 buy (resp. sell) signal equals the
conjunction of the trend condition and the strength condition rather than
being always false. -/
theorem C8_amended_first_bar_signals (p : Params) (b0 : Bar) (rest : List Bar) :
    buy_signal p (b0 :: rest) 0 =
      (decide (b0.close > b0.ema) && decide (b0.adx > p.adx_threshold)) ∧
    sell_signal p (b0 :: rest) 0 =
      (decide (b0.close < b0.ema) && decide (b0.adx > p.adx_threshold)) := by
  constructor <;>
    simp only [buy_signal, sell_signal, buySignals, sellSignals, withPrev,
      List.map_cons, List.zip_cons_cons, List.getD_cons_zero, buyAt, sellAt,
      vote2of3_false_right]

/-- C10 counterexample: with parameters inside the declared ranges, a Short
opened at price 100 and bought back after a jump to 100000 drives both the
cash balance and the recorded portfolio value far below zero, refuting the
unconditional solvency claim. -/
theorem C10_counterexample :
    (0 < scenarioParams.stop_loss ∧ scenarioParams.stop_loss < 1) ∧
    (0 < scenarioParams.take_profit ∧ scenarioParams.take_profit < 1) ∧
    (0 < scenarioParams.n_shares ∧ scenarioParams.n_shares ≤ 1) ∧
    (0 ≤ COMMISSION ∧ COMMISSION < 1) ∧
    ¬ (∀ x ∈ runTrace scenarioParams COMMISSION c10Bars, 0 ≤ x.1.cash ∧ 0 ≤ x.2) := by
  have htrace : runTrace scenarioParams COMMISSION c10Bars =
      [(⟨1499375, -5000, 100⟩, 999375), (⟨-499125625, 0, 100⟩, -499125625)] := by
    norm_num [runTrace, runLoop, simRows, withPrev, stepBar, exitPhase, entryPhase,
      markValue, buyAt, sellAt, vote2of3, crossUp, crossDown, scenarioParams, c10Bars,
      sBar, initState, INITIAL_CASH, COMMISSION]
  refine ⟨by norm_num [scenarioParams], by norm_num [scenarioParams],
    by norm_num [scenarioParams], by norm_num [COMMISSION], ?_⟩
  intro h
  have hmem : ((⟨-499125625, 0, 100⟩ : SimState), (-499125625 : ℚ)) ∈
      runTrace scenarioParams COMMISSION c10Bars := by
    rw [htrace]
    simp
  have := h _ hmem
  norm_num at this

/-- A Long whose stop or target is crossed is closed at the current price,
with the sale commission applied. -/
lemma exitPhase_long_close (sl tp c pr : ℚ) (s : SimState) (h : s.position > 0)
    (htrig : pr ≤ s.entry_price * (1 - sl) ∨ pr ≥ s.entry_price * (1 + tp)) :
    exitPhase sl tp c pr s =
      { s with cash := s.cash + s.position * pr * (1 - c), position := 0 } := by
  unfold exitPhase
  rw [if_pos h, if_pos htrig]

/-- A Long whose triggers are not crossed is held unchanged. -/
lemma exitPhase_long_hold (sl tp c pr : ℚ) (s : SimState) (h : s.position > 0)
    (htrig : ¬ (pr ≤ s.entry_price * (1 - sl) ∨ pr ≥ s.entry_price * (1 + tp))) :
    exitPhase sl tp c pr s = s := by
  unfold exitPhase
  rw [if_pos h, if_neg htrig]

/-- With neither signal set, the entry phase is the identity. -/
lemma entryPhase_noentry (n c pr : ℚ) (s : SimState) :
    entryPhase n c false false pr s = s := by
  unfold entryPhase
  simp

/-- With a position already open, the entry phase is the identity. -/
lemma entryPhase_open (n c pr : ℚ) (buy sell : Bool) (s : SimState)
    (h : s.position ≠ 0) :
    entryPhase n c buy sell pr s = s := by
  unfold entryPhase
  rw [if_neg h]

/-- The exit phase preserves nonnegative cash and nonnegative position. -/
lemma exitPhase_solvent (sl tp c pr : ℚ) (s : SimState)
    (hc1 : c < 1) (hpr : 0 < pr) (hcash : 0 ≤ s.cash) (hpos : 0 ≤ s.position) :
    0 ≤ (exitPhase sl tp c pr s).cash ∧ 0 ≤ (exitPhase sl tp c pr s).position := by
  rcases eq_or_lt_of_le hpos with heq | hlt
  · rw [exitPhase_flat sl tp c pr s heq.symm]
    exact ⟨hcash, hpos⟩
  · by_cases htrig : pr ≤ s.entry_price * (1 - sl) ∨ pr ≥ s.entry_price * (1 + tp)
    · rw [exitPhase_long_close sl tp c pr s hlt htrig]
      exact ⟨add_nonneg hcash (mul_nonneg (mul_nonneg (le_of_lt hlt) (le_of_lt hpr))
        (by linarith)), le_refl 0⟩
    · rw [exitPhase_long_hold sl tp c pr s hlt htrig]
      exact ⟨hcash, hpos⟩

/-- The entry phase and mark-to-market preserve nonnegative cash, position
and portfolio value when the sell signal is false. -/
lemma entryMark_solvent (n c pr : ℚ) (buy : Bool) (s : SimState)
    (hc0 : 0 ≤ c) (hc1 : c < 1) (hn : 0 ≤ n) (hpr : 0 < pr)
    (hcash : 0 ≤ s.cash) (hpos : 0 ≤ s.position) :
    0 ≤ (entryPhase n c buy false pr s).cash ∧
    0 ≤ (entryPhase n c buy false pr s).position ∧
    0 ≤ markValue pr (entryPhase n c buy false pr s) := by
  have hmark : ∀ s2 : SimState, 0 ≤ s2.cash → 0 ≤ s2.position → 0 ≤ markValue pr s2 := by
    intro s2 g1 g2
    unfold markValue
    split_ifs with k1 k2
    · exact add_nonneg g1 (mul_nonneg g2 (le_of_lt hpr))
    · linarith
    · exact g1
  by_cases hflat : s.position = 0
  · cases buy with
    | false =>
      rw [entryPhase_noentry n c pr s]
      exact ⟨hcash, hpos, hmark s hcash hpos⟩
    | true =>
      by_cases hgate : s.cash > s.cash * n * (1 + c)
      · rw [entryPhase_buy n c pr false s hflat hgate]
        have g1 : (0:ℚ) ≤ s.cash - s.cash * n * (1 + c) := by linarith
        have g2 : (0:ℚ) ≤ s.cash * n / pr := div_nonneg (mul_nonneg hcash hn) (le_of_lt hpr)
        exact ⟨g1, g2, hmark _ g1 g2⟩
      · rw [entryPhase_buy_skip n c pr false s hflat hgate]
        exact ⟨hcash, hpos, hmark s hcash hpos⟩
  · rw [entryPhase_open n c pr buy false s hflat]
    exact ⟨hcash, hpos, hmark s hcash hpos⟩

/-- One step on a bar with positive close and no sell signal preserves
nonnegative cash, position and recorded value. -/
lemma stepBar_solvent (p : Params) (c : ℚ) (b : Bar) (buy : Bool) (s : SimState)
    (hc0 : 0 ≤ c) (hc1 : c < 1) (hn : 0 ≤ p.n_shares) (hb : 0 < b.close)
    (hcash : 0 ≤ s.cash) (hpos : 0 ≤ s.position) :
    0 ≤ (stepBar p c b buy false s).1.cash ∧
    0 ≤ (stepBar p c b buy false s).1.position ∧
    0 ≤ (stepBar p c b buy false s).2 := by
  obtain ⟨h1, h2⟩ := exitPhase_solvent p.stop_loss p.take_profit c b.close s hc1 hb hcash hpos
  obtain ⟨g1, g2, g3⟩ := entryMark_solvent p.n_shares c b.close buy _ hc0 hc1 hn hb h1 h2
  exact ⟨g1, g2, g3⟩

/-- The simulation loop preserves solvency along rows with positive closes
and no sell signals. -/
lemma runLoop_solvent (p : Params) (c : ℚ)
    (hc0 : 0 ≤ c) (hc1 : c < 1) (hn : 0 ≤ p.n_shares) :
    ∀ (rows : List (Bar × Bool × Bool)) (s : SimState),
      (∀ r ∈ rows, 0 < r.1.close ∧ r.2.2 = false) →
      0 ≤ s.cash → 0 ≤ s.position →
      ∀ x ∈ runLoop p c s rows, 0 ≤ x.1.cash ∧ 0 ≤ x.1.position ∧ 0 ≤ x.2 := by
  intro rows
  induction rows with
  | nil =>
    intro s _ _ _ x hx
    simp [runLoop] at hx
  | cons row rest ih =>
    intro s hrows hcash hpos x hx
    obtain ⟨hclose, hsellf⟩ := hrows row (List.mem_cons_self row rest)
    simp only [runLoop, hsellf] at hx
    have hstep := stepBar_solvent p c row.1 row.2.1 s hc0 hc1 hn hclose hcash hpos
    rcases List.mem_cons.mp hx with h | h
    · rw [h]
      exact hstep
    · exact ih (stepBar p c row.1 row.2.1 false s).1
        (fun r hr => hrows r (List.mem_cons_of_mem row hr)) hstep.1 hstep.2.1 x h

/-- C10 amended: the solvency invariant holds for long-only runs — whenever
every close price is positive and the sell signal never fires, cash and the
recorded mark-to-market value stay nonnegative after every bar; with shorts
it fails (see the counterexample). -/
theorem C10_amended_long_only_solvency (p : Params) (c : ℚ) (bars : List Bar)
    (hc0 : 0 ≤ c) (hc1 : c < 1) (hn : 0 ≤ p.n_shares)
    (hprice : ∀ b ∈ bars, 0 < b.close)
    (hsell : ∀ q ∈ sellSignals p bars, q = false) :
    ∀ x ∈ runTrace p c bars, 0 ≤ x.1.cash ∧ 0 ≤ x.2 := by
  intro x hx
  have hrows : ∀ r ∈ (simRows p bars).drop 1, 0 < r.1.close ∧ r.2.2 = false := by
    intro r hr
    have hr2 : r ∈ simRows p bars := List.mem_of_mem_drop hr
    simp only [simRows, List.mem_map] at hr2
    obtain ⟨pc, hpc, rfl⟩ := hr2
    constructor
    · exact hprice pc.2 (List.of_mem_zip hpc).2
    · show sellAt p pc.1 pc.2 = false
      apply hsell
      simp only [sellSignals, List.mem_map]
      exact ⟨pc, hpc, rfl⟩
  have hinit_cash : (0:ℚ) ≤ initState.cash := by norm_num [initState, INITIAL_CASH]
  have hinit_pos : (0:ℚ) ≤ initState.position := le_refl 0
  have h := runLoop_solvent p c hc0 hc1 hn ((simRows p bars).drop 1) initState hrows
    hinit_cash hinit_pos x hx
  exact ⟨h.1, h.2.2⟩

/-- C10 witness: the amended solvency theorem applied to the long-only
scenario run, at its first trace entry. -/
theorem C10_amended_witness :
    0 ≤ ((⟨499375, 5000, 100⟩ : SimState), (999375 : ℚ)).1.cash ∧
    0 ≤ ((⟨499375, 5000, 100⟩ : SimState), (999375 : ℚ)).2 :=
  C10_amended_long_only_solvency scenarioParams COMMISSION scenarioBars
    (by norm_num [COMMISSION]) (by norm_num [COMMISSION])
    (by norm_num [scenarioParams])
    (by
      intro b hb
      fin_cases hb <;> norm_num [sBar])
    (by
      have hs : sellSignals scenarioParams scenarioBars =
          [false, false, false, false, false, false, false, false, false, false] := by
        norm_num [sellSignals, withPrev, sellAt, vote2of3, crossDown, scenarioBars,
          sBar, scenarioParams]
      rw [hs]
      intro q hq
      fin_cases hq <;> rfl)
    ((⟨499375, 5000, 100⟩ : SimState), (999375 : ℚ))
    (by rw [scenario_trace]; simp)

/-- C5: the walk-forward objective short-circuits to exactly −1 without
evaluating the indicator function or simulating any block when the MACD fast
period is ≥ the slow period, and likewise when the pre-indicator block size
`len(data) // 10` is below 30 (the quantification over the abstract indicator
function expresses independence from all per-block work). -/
theorem C5_walkforward_shortcircuit (op : OptParams) (data : List RawBar) :
    (op.macd_slow ≤ op.macd_fast →
       ∀ f : List RawBar → List Bar, objective f op data = -1) ∧
    (data.length / 10 < 30 →
       ∀ f : List RawBar → List Bar, objective f op data = -1) := by
  constructor
  · intro hfs f
    unfold objective
    rw [if_pos hfs]
  · intro hchunk f
    unfold objective
    by_cases h1 : op.macd_fast ≥ op.macd_slow
    · rw [if_pos h1]
    · rw [if_neg h1]
      dsimp only
      rw [if_pos hchunk]

/-- C5 witness: both short-circuits evaluated at concrete trials (fast 30 ≥
slow 22, and an empty dataset whose block size 0 is below 30). -/
theorem C5_walkforward_shortcircuit_witness :
    objective (fun _ => []) ⟨30, 22, scenarioParams⟩ [] = -1 ∧
    objective (fun _ => []) ⟨7, 22, scenarioParams⟩ [] = -1 :=
  ⟨(C5_walkforward_shortcircuit ⟨30, 22, scenarioParams⟩ []).1 (by norm_num) _,
   (C5_walkforward_shortcircuit ⟨7, 22, scenarioParams⟩ []).2 (by norm_num) _⟩

/-- Running maximum of a constant list is the list itself, continuing from
the same constant. -/
lemma cummaxAux_replicate (c : ℚ) : ∀ n, cummaxAux c (List.replicate n c) = List.replicate n c
  | 0 => rfl
  | n + 1 => by
    simp only [List.replicate_succ, cummaxAux, max_self]
    rw [cummaxAux_replicate c n]

/-- Running maximum of a constant list is the list itself. -/
lemma cummax_replicate (c : ℚ) : ∀ n, cummax (List.replicate n c) = List.replicate n c
  | 0 => rfl
  | n + 1 => by
    simp only [List.replicate_succ, cummax]
    rw [cummaxAux_replicate]

/-- Drawdowns of a constant series are all zero. -/
lemma drawdown_replicate (c : ℚ) (n : ℕ) :
    drawdownList (List.replicate n c) = List.replicate n 0 := by
  unfold drawdownList
  rw [cummax_replicate, List.zipWith_replicate']
  simp

/-- Folding `min` from zero over zeros yields zero. -/
lemma foldl_min_zero : ∀ n, List.foldl min (0:ℚ) (List.replicate n 0) = 0
  | 0 => rfl
  | n + 1 => by
    simp only [List.replicate_succ, List.foldl, min_self]
    exact foldl_min_zero n

/-- The minimum of a list of zeros is zero. -/
lemma listMin_replicate_zero : ∀ n, listMin (List.replicate n (0:ℚ)) = 0
  | 0 => rfl
  | n + 1 => by
    simp only [List.replicate_succ, listMin]
    exact foldl_min_zero n

/-- The maximum drawdown of a constant-value series is zero. -/
lemma maxDrawdown_const (ts : List ℚ) (c : ℚ) :
    maxDrawdown (ts.map (fun t => (t, c))) = 0 := by
  unfold maxDrawdown
  rw [List.map_map]
  have hcomp : (Prod.snd ∘ fun t : ℚ => (t, c)) = fun _ : ℚ => c := rfl
  rw [hcomp, List.map_const', drawdown_replicate, listMin_replicate_zero]
  simp

/-- C4: the objective metric returns 0 for series with fewer than two points,
for elapsed time under one hour, and for maximum drawdown under 1%; otherwise
it returns the annualized return divided by the maximum drawdown; and every
(positive) constant-value series scores 0. -/
theorem C4_objective_metric_cases (s : List (ℚ × ℚ)) :
    (s.length < 2 → calculate_objective_metric s = 0) ∧
    (nHours s < 1 → calculate_objective_metric s = 0) ∧
    (maxDrawdown s < 1 / 100 → calculate_objective_metric s = 0) ∧
    (2 ≤ s.length → 1 ≤ nHours s → 1 / 100 ≤ maxDrawdown s →
      calculate_objective_metric s = annualizedReturn s / (maxDrawdown s : ℝ)) ∧
    (∀ c : ℚ, 0 < c → ∀ ts : List ℚ,
      calculate_objective_metric (ts.map (fun t => (t, c))) = 0) := by
  refine ⟨?_, ?_, ?_, ?_, ?_⟩
  · intro h
    unfold calculate_objective_metric
    rw [if_pos h]
  · intro h
    unfold calculate_objective_metric
    by_cases h1 : s.length < 2
    · rw [if_pos h1]
    · rw [if_neg h1, if_pos h]
  · intro h
    unfold calculate_objective_metric
    by_cases h1 : s.length < 2
    · rw [if_pos h1]
    · rw [if_neg h1]
      by_cases h2 : nHours s < 1
      · rw [if_pos h2]
      · rw [if_neg h2, if_pos h]
  · intro hlen hhr hdd
    unfold calculate_objective_metric
    rw [if_neg (by omega : ¬ s.length < 2), if_neg (not_lt.mpr hhr),
      if_neg (not_lt.mpr hdd)]
  · intro c hc ts
    unfold calculate_objective_metric
    by_cases h1 : (ts.map (fun t => (t, c))).length < 2
    · rw [if_pos h1]
    · rw [if_neg h1]
      by_cases h2 : nHours (ts.map (fun t => (t, c))) < 1
      · rw [if_pos h2]
      · rw [if_neg h2, if_pos (by rw [maxDrawdown_const]; norm_num)]

/-- C4 witness: a one-point series scores 0 through the short-series branch,
and a two-point constant series at value 5 scores 0 through the
constant-series conjunct. -/
theorem C4_objective_metric_witness :
    calculate_objective_metric [((0:ℚ), (1:ℚ))] = 0 ∧
    calculate_objective_metric ([(0:ℚ), 7200].map (fun t => (t, (5:ℚ)))) = 0 :=
  ⟨(C4_objective_metric_cases [((0:ℚ), (1:ℚ))]).1 (by norm_num),
   (C4_objective_metric_cases ([(0:ℚ), 7200].map (fun t => (t, (5:ℚ))))).2.2.2.2 5
     (by norm_num) [0, 7200]⟩

/-- Elements below a common cut-off of two lists that agree up to that
cut-off coincide. -/
lemma getD_congr_of_take_eq {α : Type} (l l2 : List α) (n m : ℕ) (d : α)
    (h : l.take n = l2.take n) (hm : m < n) : l.getD m d = l2.getD m d := by
  rw [List.getD_eq_getElem?_getD, List.getD_eq_getElem?_getD,
    ← List.getElem?_take_of_lt (l := l) hm, h, List.getElem?_take_of_lt hm]

/-- Pairing bars with their predecessors only looks backwards: initial
segments of `withPrev` are determined by initial segments of the bars. -/
lemma withPrev_take_congr (bars bars2 : List Bar) (n : ℕ)
    (h : bars.take n = bars2.take n) :
    (withPrev bars).take n = (withPrev bars2).take n := by
  unfold withPrev
  rw [List.zip_eq_zipWith, List.zip_eq_zipWith, List.take_zipWith, List.take_zipWith, h]
  have hpond : (none :: bars.map some).take n = (none :: bars2.map some).take n := by
    cases n with
    | zero => rfl
    | succ m =>
      simp only [List.take_succ_cons]
      rw [← List.map_take, ← List.map_take]
      have htm : bars.take m = bars2.take m := by
        have hh := congrArg (List.take m) h
        rwa [List.take_take, List.take_take, min_eq_left (Nat.le_succ m)] at hh
      rw [htm]
  rw [hpond]

/-- The simulation loop is causal: initial segments of its output are
determined by initial segments of its input rows. -/
lemma runLoop_take_congr (p : Params) (c : ℚ) :
    ∀ (n : ℕ) (rows rows2 : List (Bar × Bool × Bool)) (s : SimState),
      rows.take n = rows2.take n →
      (runLoop p c s rows).take n = (runLoop p c s rows2).take n := by
  intro n
  induction n with
  | zero =>
    intro rows rows2 s _
    rfl
  | succ m ih =>
    intro rows rows2 s h
    cases rows with
    | nil =>
      cases rows2 with
      | nil => rfl
      | cons r2 rest2 => simp at h
    | cons r rest =>
      cases rows2 with
      | nil => simp at h
      | cons r2 rest2 =>
        simp only [List.take_succ_cons, List.cons.injEq] at h
        obtain ⟨rfl, htail⟩ := h
        simp only [runLoop, List.take_succ_cons]
        rw [ih rest rest2 _ htail]

/-- C7: causality — if two bar sequences agree on indices `0..i` (bars past
`i` altered or removed), the buy and sell signals at bar `i` and the
simulator's entire state-and-value trace through bar `i` coincide. -/
theorem C7_causality (p : Params) (c : ℚ) (bars bars2 : List Bar) (i : ℕ)
    (h : bars.take (i + 1) = bars2.take (i + 1)) :
    buy_signal p bars i = buy_signal p bars2 i ∧
    sell_signal p bars i = sell_signal p bars2 i ∧
    (runTrace p c bars).take i = (runTrace p c bars2).take i := by
  have hwp := withPrev_take_congr bars bars2 (i + 1) h
  refine ⟨?_, ?_, ?_⟩
  · unfold buy_signal buySignals
    exact getD_congr_of_take_eq _ _ (i + 1) i false
      (by rw [← List.map_take, ← List.map_take, hwp]) (Nat.lt_succ_self i)
  · unfold sell_signal sellSignals
    exact getD_congr_of_take_eq _ _ (i + 1) i false
      (by rw [← List.map_take, ← List.map_take, hwp]) (Nat.lt_succ_self i)
  · unfold runTrace
    have hrows : ((simRows p bars).drop 1).take i = ((simRows p bars2).drop 1).take i := by
      rw [List.take_drop, List.take_drop]
      have hsr : (simRows p bars).take (1 + i) = (simRows p bars2).take (1 + i) := by
        unfold simRows
        rw [← List.map_take, ← List.map_take]
        have hwp2 := withPrev_take_congr bars bars2 (1 + i) (by rwa [Nat.add_comm 1 i])
        rw [hwp2]
      rw [hsr]
    exact runLoop_take_congr p c i _ _ initState hrows

/-- C7 witness: the causality theorem at bar index 2 for the scenario bars
against a sequence altered from index 3 on. -/
theorem C7_causality_witness :
    buy_signal scenarioParams scenarioBars 2 = buy_signal scenarioParams c7AltBars 2 ∧
    sell_signal scenarioParams scenarioBars 2 = sell_signal scenarioParams c7AltBars 2 ∧
    (runTrace scenarioParams COMMISSION scenarioBars).take 2 =
      (runTrace scenarioParams COMMISSION c7AltBars).take 2 :=
  C7_causality scenarioParams COMMISSION scenarioBars c7AltBars 2
    (by norm_num [scenarioBars, c7AltBars, sBar])

end Trading
